import Mathlib

/-!
Verification of the Furnitron web-scraper pipeline
(`furnitron/web_scraper/main.py` and `furnitron/web_scraper/swhoosh.py`).

Shallow embedding conventions:
* Python strings are embedded as `List Char` (`Str`); `str` converts a Lean
  string literal to that representation.
* Python `str.strip()` / `str.split()` / `str.split(sep)` / `str.startswith`
  are embedded char-by-char (`pyStrip`, `pyWords`, `pySplitSub`,
  `List.isPrefixOf`).
* The frozen binary sequence-classification model together with the
  tokenizer is abstracted as a per-candidate Boolean function
  `m : Str → Bool` (the attention mask makes the per-item prediction a
  function of the item alone; inference is deterministic).
* Selenium exceptions are embedded as `ExcKind`; `TimeoutException` and
  `StaleElementReferenceException` are subclasses of `WebDriverException`,
  which `isWebDriverExc` reflects.
* The behaviour of the external browser on one URL is an oracle
  `PageBehavior`: either the page loads and yields a list of leaf texts, or
  some step inside the `try` block raises an exception of a given kind.
* The output file is a list of lines (`List Str`); file operations are an
  explicit trace (`FileOp`) so that truncation on open and appending writes
  are visible.
-/

/-- A Python string, embedded as its list of characters. -/
abbrev Str := List Char

/-- Convert a Lean string literal to the embedding type. -/
def str (s : String) : Str := s.data

/-- Whitespace predicate used by Python `str.strip()` / `str.split()`. -/
def wsp (c : Char) : Bool := c.isWhitespace

/-- Remove leading whitespace (left part of Python `str.strip()`). -/
def stripLeft (s : Str) : Str := s.dropWhile wsp

/-- Remove trailing whitespace (right part of Python `str.strip()`). -/
def stripRight (s : Str) : Str := (s.reverse.dropWhile wsp).reverse

/-- Python `s.strip()`: remove leading and trailing whitespace. -/
def pyStrip (s : Str) : Str := stripRight (stripLeft s)

/-- Python `s.split()` (no separator): the maximal whitespace-free runs of
`s`, i.e. split at every whitespace character and drop empty fragments. -/
def pyWords (s : Str) : List Str := (s.splitOnP wsp).filter (fun w => !w.isEmpty)

/-- `filter_text` (main.py:111-125): a candidate is kept iff `t.strip()` is
truthy (non-empty) and `len(t.split()) <= 10`. -/
def filter_text (t : Str) : Bool :=
  !(pyStrip t).isEmpty && decide ((pyWords t).length ≤ 10)

/-- `get_candidate_names` (main.py:128-138): keep the leaf texts passing
`filter_text`, preserving order. -/
def get_candidate_names (leaf_nodes_text : List Str) : List Str :=
  leaf_nodes_text.filter filter_text

/-- `BATCH_SIZE` (main.py:31). -/
def BATCH_SIZE : Nat := 64

/-- Loop body of `model_inference` (main.py:141-166).  The Python loop
`for i in range(0, len(names), B)` takes one chunk `names[i : i + B]` per
iteration; the fuel argument bounds the number of iterations (with `B ≥ 1`
the loop runs at most `len(names)` times, so fuel `names.length` suffices
and is never exhausted). -/
def model_inference_aux (m : Str → Bool) (B : Nat) : Nat → List Str → List Str
  | _, [] => []
  | 0, _ :: _ => []
  | fuel + 1, c :: cs =>
    ((c :: cs).take B).filter m ++ model_inference_aux m B fuel ((c :: cs).drop B)

/-- `model_inference` (main.py:141-166): classify `names` in contiguous
chunks of at most `B`, concatenating the positives of each chunk.  The
source fixes `B = BATCH_SIZE`; it is a parameter here so that claims can
quantify over it.  `B = 0` makes Python's `range` raise `ValueError`; the
guard returns `[]` for totality (all claims assume `B ≥ 1`). -/
def model_inference (m : Str → Bool) (B : Nat) (names : List Str) : List Str :=
  if B = 0 then [] else model_inference_aux m B names.length names

/-- Number of forward passes (model invocations) performed by
`model_inference`: one per non-empty chunk. -/
def model_inference_calls_aux (B : Nat) : Nat → List Str → Nat
  | _, [] => 0
  | 0, _ :: _ => 0
  | fuel + 1, c :: cs => 1 + model_inference_calls_aux B fuel ((c :: cs).drop B)

/-- Number of model invocations of `model_inference m B names`. -/
def model_inference_calls (B : Nat) (names : List Str) : Nat :=
  if B = 0 then 0 else model_inference_calls_aux B names.length names

theorem model_inference_aux_eq_filter (m : Str → Bool) (B : Nat) (hB : 1 ≤ B) :
    ∀ (fuel : Nat) (l : List Str), l.length ≤ fuel →
      model_inference_aux m B fuel l = l.filter m := by
  intro fuel
  induction fuel with
  | zero =>
    intro l hl
    cases l with
    | nil => rfl
    | cons c cs => simp at hl
  | succ n ih =>
    intro l hl
    cases l with
    | nil => rfl
    | cons c cs =>
      have hdrop : ((c :: cs).drop B).length ≤ n := by
        simp only [List.length_drop, List.length_cons] at *
        omega
      rw [model_inference_aux, ih _ hdrop, ← List.filter_append,
        List.take_append_drop]

theorem model_inference_eq_filter (m : Str → Bool) (B : Nat) (hB : 1 ≤ B)
    (l : List Str) : model_inference m B l = l.filter m := by
  have hB0 : ¬ B = 0 := by omega
  rw [model_inference, if_neg hB0,
    model_inference_aux_eq_filter m B hB l.length l (Nat.le_refl _)]

/-- Selenium exception classes relevant to the scraper.  `timeout` models
`TimeoutException`, `stale` models `StaleElementReferenceException`,
`webdriver` models any other `WebDriverException`, and `other` models any
exception that is not a `WebDriverException` (e.g. an error raised by the
tokenizer or the torch forward pass). -/
inductive ExcKind where
  | timeout
  | stale
  | webdriver
  | other
deriving DecidableEq

/-- Whether an exception is (an instance of a subclass of)
`WebDriverException`.  `TimeoutException` and
`StaleElementReferenceException` are subclasses of `WebDriverException` in
Selenium. -/
def isWebDriverExc : ExcKind → Bool
  | .other => false
  | _ => true

/-- Oracle describing what the browser does for one URL: either the page
loads, the readiness wait succeeds and the in-page script returns the given
leaf texts, or some step inside the `try` block of `scrape_product_names`
raises an exception of the given kind. -/
inductive PageBehavior where
  | loads (leafTexts : List Str)
  | raises (k : ExcKind)

/-- `scrape_product_names` (main.py:169-196): run steps 1-5 for one URL.
On success it returns the classifier's positives; the two `except` clauses
(`(TimeoutException, StaleElementReferenceException)` and
`WebDriverException`) catch every `WebDriverException`, log, and fall off
the end of the function, which in Python returns `None` — hence the result
type `Except ExcKind (Option (List Str))`, where `.ok none` is the caught
path and `.error k` is an exception escaping the function. -/
def scrape_product_names (m : Str → Bool) (b : PageBehavior) :
    Except ExcKind (Option (List Str)) :=
  match b with
  | .loads ts => .ok (some (model_inference m BATCH_SIZE (get_candidate_names ts)))
  | .raises k => if isWebDriverExc k then .ok none else .error k

/-- A file operation performed by `produce_output` on the output artifact:
`openTrunc` is `open(path, "w")` (truncating open) and `writeLines ls` is a
`write`/`writelines` call appending the lines `ls`. -/
inductive FileOp where
  | openTrunc
  | writeLines (ls : List Str)

/-- Effect of one file operation on the file content (a list of lines). -/
def applyOp (content : List Str) : FileOp → List Str
  | .openTrunc => []
  | .writeLines ls => content ++ ls

/-- Replay a trace of file operations over an initial content. -/
def runOps (content : List Str) (ops : List FileOp) : List Str :=
  ops.foldl applyOp content

/-- Whether an operation is a write (as opposed to a truncating open). -/
def isWrite : FileOp → Bool
  | .writeLines _ => true
  | .openTrunc => false

/-- The line `URL: ` prefix written by `produce_output` ("URL: "). -/
def urlMarker : Str := ['U', 'R', 'L', ':', ' ']

/-- The marker separator used by the indexer ("URL:"). -/
def urlSep : Str := ['U', 'R', 'L', ':']

/-- Result of one run of `produce_output`: the write operations performed
after the truncating open, the URLs actually passed to
`scrape_product_names` (in call order; each appears once per call, so the
trace also witnesses that no URL is retried), and the exception that
aborted the run, if any. -/
structure RunOutcome where
  ops : List FileOp
  scraped : List Str
  fatal : Option ExcKind

/-- `produce_output` (main.py:199-228), per-URL loop.  For each URL the
orchestrator calls `scrape_product_names`; a truthy result (`None` and `[]`
are falsy) is written as `"\nURL: {url}\n"` followed by one line per name.
The surrounding `try` catches only `WebDriverException` (log and continue);
any other exception propagates, ending the loop (the `with` block still
closes the file, so previously written content persists). -/
def produce_output (m : Str → Bool) (env : Str → PageBehavior) :
    List Str → RunOutcome
  | [] => ⟨[], [], none⟩
  | url :: rest =>
    match scrape_product_names m (env url) with
    | .ok r =>
      ⟨(if (r.getD []).isEmpty then []
        else [FileOp.writeLines ([] :: (urlMarker ++ url) :: r.getD [])]) ++
          (produce_output m env rest).ops,
        url :: (produce_output m env rest).scraped,
        (produce_output m env rest).fatal⟩
    | .error k =>
      if isWebDriverExc k then
        ⟨(produce_output m env rest).ops,
          url :: (produce_output m env rest).scraped,
          (produce_output m env rest).fatal⟩
      else ⟨[], [url], some k⟩

/-- The full operation trace of a run: `open(path, "w")` happens before any
URL is processed, then only writes. -/
def produce_output_ops (m : Str → Bool) (env : Str → PageBehavior)
    (urls : List Str) : List FileOp :=
  FileOp.openTrunc :: (produce_output m env urls).ops

/-- Content of the output artifact after a run (the file starts empty
because of the truncating open). -/
def artifact (m : Str → Bool) (env : Str → PageBehavior) (urls : List Str) :
    List Str :=
  runOps [] (produce_output m env urls).ops

/-- Specification-side description of the positives one URL yields: the
classifier output on a loaded page, nothing on a raising page. -/
def positives (m : Str → Bool) (env : Str → PageBehavior) (u : Str) :
    List Str :=
  match env u with
  | .loads ts => model_inference m BATCH_SIZE (get_candidate_names ts)
  | .raises _ => []

/-- Specification-side block for one URL (spec §6: a blank line, the
`URL: <url>` line, then one line per name; nothing if there are no
positives). -/
def specBlock (url : Str) (names : List Str) : List Str :=
  if names = [] then [] else [] :: (urlMarker ++ url) :: names

/-- Concatenation of the spec-side blocks of a list of URLs, in order. -/
def specBlocks (m : Str → Bool) (env : Str → PageBehavior) :
    List Str → List Str
  | [] => []
  | u :: us => specBlock u (positives m env u) ++ specBlocks m env us

/-- A page behavior is fatal to the run iff it raises an exception that is
not a `WebDriverException` (nothing catches it). -/
def isFatalBehavior : PageBehavior → Bool
  | .raises k => !isWebDriverExc k
  | .loads _ => false

theorem produce_output_ops_all_writes (m : Str → Bool)
    (env : Str → PageBehavior) :
    ∀ urls : List Str, (produce_output m env urls).ops.all isWrite = true := by
  intro urls
  induction urls with
  | nil => rfl
  | cons u rest ih =>
    cases he : env u with
    | loads ts =>
      by_cases hempty :
          (model_inference m BATCH_SIZE (get_candidate_names ts)).isEmpty = true
      · simp [produce_output, scrape_product_names, he, hempty, ih]
      · simp [produce_output, scrape_product_names, he, hempty, isWrite, ih]
    | raises k =>
      cases hk : isWebDriverExc k with
      | true => simp [produce_output, scrape_product_names, he, hk, ih]
      | false => simp [produce_output, scrape_product_names, he, hk]

theorem runOps_append (c : List Str) (ops₁ ops₂ : List FileOp) :
    runOps c (ops₁ ++ ops₂) = runOps (runOps c ops₁) ops₂ := by
  simp [runOps, List.foldl_append]

theorem runOps_all_writes :
    ∀ ops : List FileOp, ops.all isWrite = true →
      ∀ c : List Str, runOps c ops = c ++ runOps [] ops := by
  intro ops
  induction ops with
  | nil => intro _ c; simp [runOps]
  | cons op ops ih =>
    intro h c
    cases op with
    | openTrunc => simp [isWrite] at h
    | writeLines ls =>
      simp only [List.all_cons, Bool.and_eq_true] at h
      show runOps (c ++ ls) ops = c ++ runOps ([] ++ ls) ops
      rw [ih h.2 (c ++ ls), ih h.2 ([] ++ ls)]
      simp

theorem artifact_eq_specBlocks (m : Str → Bool) (env : Str → PageBehavior) :
    ∀ urls : List Str,
      artifact m env urls = specBlocks m env (produce_output m env urls).scraped := by
  intro urls
  induction urls with
  | nil => rfl
  | cons u rest ih =>
    have ihr : runOps [] (produce_output m env rest).ops =
        specBlocks m env (produce_output m env rest).scraped := ih
    cases he : env u with
    | loads ts =>
      have hops : (produce_output m env (u :: rest)).ops =
          (if (model_inference m BATCH_SIZE (get_candidate_names ts)).isEmpty then []
           else [FileOp.writeLines ([] :: (urlMarker ++ u) ::
             model_inference m BATCH_SIZE (get_candidate_names ts))]) ++
            (produce_output m env rest).ops := by
        simp [produce_output, scrape_product_names, he]
      have hscr : (produce_output m env (u :: rest)).scraped =
          u :: (produce_output m env rest).scraped := by
        simp [produce_output, scrape_product_names, he]
      rw [artifact, hops, hscr, runOps_append,
        runOps_all_writes _ (produce_output_ops_all_writes m env rest), ihr,
        specBlocks]
      congr 1
      rw [positives, he, specBlock]
      by_cases hempty : model_inference m BATCH_SIZE (get_candidate_names ts) = []
      · simp [hempty, runOps]
      · simp [hempty, List.isEmpty_iff, runOps, applyOp]
    | raises k =>
      cases hk : isWebDriverExc k with
      | true =>
        have hops : (produce_output m env (u :: rest)).ops =
            (produce_output m env rest).ops := by
          simp [produce_output, scrape_product_names, he, hk]
        have hscr : (produce_output m env (u :: rest)).scraped =
            u :: (produce_output m env rest).scraped := by
          simp [produce_output, scrape_product_names, he, hk]
        rw [artifact, hops, hscr, ihr, specBlocks, positives, he, specBlock,
          if_pos rfl]
        simp
      | false =>
        have hops : (produce_output m env (u :: rest)).ops = [] := by
          simp [produce_output, scrape_product_names, he, hk]
        have hscr : (produce_output m env (u :: rest)).scraped = [u] := by
          simp [produce_output, scrape_product_names, he, hk]
        rw [artifact, hops, hscr]
        simp [specBlocks, specBlock, positives, he, runOps]

theorem produce_output_no_fatal (m : Str → Bool) (env : Str → PageBehavior) :
    ∀ urls : List Str, urls.all (fun u => !isFatalBehavior (env u)) = true →
      (produce_output m env urls).scraped = urls ∧
        (produce_output m env urls).fatal = none := by
  intro urls
  induction urls with
  | nil => intro _; exact ⟨rfl, rfl⟩
  | cons u rest ih =>
    intro h
    simp only [List.all_cons, Bool.and_eq_true] at h
    have ihr := ih h.2
    cases he : env u with
    | loads ts =>
      constructor
      · simp [produce_output, scrape_product_names, he, ihr.1]
      · simp [produce_output, scrape_product_names, he, ihr.2]
    | raises k =>
      have hk : isWebDriverExc k = true := by
        have := h.1
        rw [he] at this
        simpa [isFatalBehavior] using this
      constructor
      · simp [produce_output, scrape_product_names, he, hk, ihr.1]
      · simp [produce_output, scrape_product_names, he, hk, ihr.2]

/-- First occurrence of the (non-empty) separator `sep` in `s`: `none` if
`sep` does not occur in `s`, otherwise `some (a, b)` where `a` is the part
of `s` before the first occurrence and `b` the part after it. -/
def splitFirst (sep : Str) : Str → Option (Str × Str)
  | [] => none
  | c :: cs =>
    if sep.isPrefixOf (c :: cs) then some ([], (c :: cs).drop sep.length)
    else
      match splitFirst sep cs with
      | none => none
      | some (a, b) => some (c :: a, b)

/-- The part of `s` before the first occurrence of `sep` (all of `s` if
`sep` does not occur). -/
def beforeFirst (sep s : Str) : Str :=
  match splitFirst sep s with
  | none => s
  | some (a, _) => a

/-- Loop body of Python `s.split(sep)` for non-empty `sep`: cut at each
(left-to-right, non-overlapping) occurrence of `sep`.  Each step removes at
least `sep.length ≥ 1` characters, so fuel `s.length + 1` bounds the number
of cuts and is never exhausted. -/
def pySplitSubAux (sep : Str) : Nat → Str → List Str
  | 0, s => [s]
  | fuel + 1, s =>
    match splitFirst sep s with
    | none => [s]
    | some (a, b) => a :: pySplitSubAux sep fuel b

/-- Python `s.split(sep)`.  An empty separator raises `ValueError` in
Python; the guard returns `[s]` for totality (the indexer only calls this
with `sep = "URL:"`). -/
def pySplitSub (sep s : Str) : List Str :=
  if sep.isEmpty then [s] else pySplitSubAux sep (s.length + 1) s

/-- Loop of `add_data_to_index` (swhoosh.py:32-41) over the lines of the
artifact, carrying the `current_url` cursor: each line is stripped; a line
starting with `URL:` updates the cursor to `line.split("URL:")[1].strip()`;
any other non-blank line becomes one `(url, content)` document. -/
def add_data_go (current_url : Str) : List Str → List (Str × Str)
  | [] => []
  | l :: ls =>
    if urlSep.isPrefixOf (pyStrip l) then
      add_data_go (pyStrip ((pySplitSub urlSep (pyStrip l)).getD 1 [])) ls
    else if (pyStrip l).isEmpty then add_data_go current_url ls
    else (current_url, pyStrip l) :: add_data_go current_url ls

/-- `add_data_to_index` (swhoosh.py:22-44): the sequence of documents
added to the index when ingesting the given lines.  `current_url` starts as
the empty string (swhoosh.py:33). -/
def add_data_to_index (lines : List Str) : List (Str × Str) :=
  add_data_go [] lines

theorem stripLeft_cons_not_wsp (c : Char) (s : Str) (h : wsp c = false) :
    stripLeft (c :: s) = c :: s := by
  simp [stripLeft, List.dropWhile_cons, h]

theorem stripLeft_cons_wsp (c : Char) (s : Str) (h : wsp c = true) :
    stripLeft (c :: s) = stripLeft s := by
  simp [stripLeft, List.dropWhile_cons, h]

theorem pyStrip_cons_wsp (c : Char) (s : Str) (h : wsp c = true) :
    pyStrip (c :: s) = pyStrip s := by
  rw [pyStrip, stripLeft_cons_wsp c s h, pyStrip]

theorem dropWhile_append_left (p : Char → Bool) (xs ys : Str)
    (h : xs.dropWhile p ≠ []) :
    (xs ++ ys).dropWhile p = xs.dropWhile p ++ ys := by
  rw [List.dropWhile_append, if_neg]
  simpa [List.isEmpty_iff] using h

theorem stripRight_append (a b : Str) (h : stripRight b ≠ []) :
    stripRight (a ++ b) = a ++ stripRight b := by
  have hb : b.reverse.dropWhile wsp ≠ [] := by
    intro hh
    exact h (by simp [stripRight, hh])
  rw [stripRight, List.reverse_append, dropWhile_append_left wsp _ _ hb,
    List.reverse_append, List.reverse_reverse, stripRight]

theorem dropWhile_eq_self_of_length (p : Char → Bool) (l : Str)
    (h : (l.dropWhile p).length = l.length) : l.dropWhile p = l :=
  (List.dropWhile_sublist p).eq_of_length h

theorem strip_parts (u : Str) (h : pyStrip u = u) :
    stripLeft u = u ∧ stripRight u = u := by
  have h1 : (stripLeft u).length ≤ u.length := by
    simpa [stripLeft] using (List.dropWhile_sublist wsp (l := u)).length_le
  have h2 : (pyStrip u).length ≤ (stripLeft u).length := by
    have := (List.dropWhile_sublist wsp (l := (stripLeft u).reverse)).length_le
    simpa [pyStrip, stripRight] using this
  rw [h] at h2
  have hL : stripLeft u = u := by
    apply dropWhile_eq_self_of_length wsp u
    simp only [stripLeft] at h1 h2
    omega
  refine ⟨hL, ?_⟩
  rw [pyStrip, hL] at h
  exact h

theorem isPrefixOf_self_append (p x : Str) : p.isPrefixOf (p ++ x) = true := by
  induction p with
  | nil => cases x <;> rfl
  | cons c cs ih => simp [List.isPrefixOf, ih]

theorem urlSep_not_prefixOf_space (u : Str) :
    urlSep.isPrefixOf (' ' :: u) = false := by
  show (('U' == ' ') && List.isPrefixOf ['R', 'L', ':'] u) = false
  rfl

theorem splitFirst_of_isPrefixOf (sep : Str) (c : Char) (cs : Str)
    (h : sep.isPrefixOf (c :: cs) = true) :
    splitFirst sep (c :: cs) = some ([], (c :: cs).drop sep.length) := by
  rw [splitFirst, if_pos h]

theorem splitFirst_cons_not (sep : Str) (c : Char) (cs : Str)
    (h : sep.isPrefixOf (c :: cs) = false) :
    splitFirst sep (c :: cs) =
      match splitFirst sep cs with
      | none => none
      | some (a, b) => some (c :: a, b) := by
  rw [splitFirst, if_neg (by simp [h])]

theorem splitFirst_sep_append (x : Str) :
    splitFirst urlSep (urlSep ++ x) = some ([], x) := by
  have h := splitFirst_of_isPrefixOf urlSep 'U' (['R', 'L', ':'] ++ x)
    (isPrefixOf_self_append urlSep x)
  rw [show urlSep ++ x = 'U' :: (['R', 'L', ':'] ++ x) from rfl, h]
  rw [show ('U' :: (['R', 'L', ':'] ++ x)).drop urlSep.length =
    (urlSep ++ x).drop urlSep.length from rfl, List.drop_left]

theorem pySplitSubAux_pos (sep : Str) (n : Nat) (h : n ≠ 0) (s : Str) :
    pySplitSubAux sep n s =
      match splitFirst sep s with
      | none => [s]
      | some (a, b) => a :: pySplitSubAux sep (n - 1) b := by
  cases n with
  | zero => exact absurd rfl h
  | succ k => rfl

theorem pySplitSubAux_step (sep : Str) (n : Nat) (h : n ≠ 0) (s a b : Str)
    (hs : splitFirst sep s = some (a, b)) :
    pySplitSubAux sep n s = a :: pySplitSubAux sep (n - 1) b := by
  rw [pySplitSubAux_pos sep n h s]
  simp [hs]

theorem pySplitSubAux_last (sep : Str) (n : Nat) (h : n ≠ 0) (s : Str)
    (hs : splitFirst sep s = none) : pySplitSubAux sep n s = [s] := by
  rw [pySplitSubAux_pos sep n h s]
  simp [hs]

theorem splitFirst_space_none (u : Str) (h : splitFirst urlSep u = none) :
    splitFirst urlSep (' ' :: u) = none := by
  rw [splitFirst_cons_not urlSep ' ' u (urlSep_not_prefixOf_space u)]
  simp [h]

theorem splitFirst_space_some (u a b : Str)
    (h : splitFirst urlSep u = some (a, b)) :
    splitFirst urlSep (' ' :: u) = some (' ' :: a, b) := by
  rw [splitFirst_cons_not urlSep ' ' u (urlSep_not_prefixOf_space u)]
  simp [h]

theorem marker_split_none (u : Str) (h : splitFirst urlSep u = none) :
    (pySplitSub urlSep (urlMarker ++ u)).getD 1 [] = ' ' :: u := by
  have e1 : splitFirst urlSep (urlMarker ++ u) = some ([], ' ' :: u) :=
    splitFirst_sep_append (' ' :: u)
  rw [pySplitSub, if_neg (by simp [urlSep]),
    pySplitSubAux_step urlSep _ (by simp) _ _ _ e1,
    pySplitSubAux_last urlSep _
      (by simp [urlMarker, List.length_append]) _ (splitFirst_space_none u h)]
  rfl

theorem marker_split_some (u a b : Str)
    (h : splitFirst urlSep u = some (a, b)) :
    (pySplitSub urlSep (urlMarker ++ u)).getD 1 [] = ' ' :: a := by
  have e1 : splitFirst urlSep (urlMarker ++ u) = some ([], ' ' :: u) :=
    splitFirst_sep_append (' ' :: u)
  rw [pySplitSub, if_neg (by simp [urlSep]),
    pySplitSubAux_step urlSep _ (by simp) _ _ _ e1,
    pySplitSubAux_step urlSep _
      (by simp [urlMarker, List.length_append]) _ _ _
      (splitFirst_space_some u a b h)]
  rfl

/-- Effect of a marker line `"URL: " ++ u` on the indexing loop: the new
cursor is the stripped part of `u` before the first occurrence of `"URL:"`
inside `u` (`line.split("URL:")[1].strip()` in swhoosh.py:37). -/
theorem add_data_go_marker (cur : Str) (rest : List Str) (u : Str)
    (h1 : pyStrip u = u) (h2 : u ≠ []) :
    add_data_go cur ((urlMarker ++ u) :: rest) =
      add_data_go (pyStrip (beforeFirst urlSep u)) rest := by
  obtain ⟨hL, hR⟩ := strip_parts u h1
  have hstrip : pyStrip (urlMarker ++ u) = urlMarker ++ u := by
    have hl : stripLeft (urlMarker ++ u) = urlMarker ++ u :=
      stripLeft_cons_not_wsp 'U' (['R', 'L', ':', ' '] ++ u) (by decide)
    rw [pyStrip, hl, stripRight_append urlMarker u (by rw [hR]; exact h2), hR]
  rw [add_data_go, hstrip,
    if_pos (show urlSep.isPrefixOf (urlMarker ++ u) = true from
      isPrefixOf_self_append urlSep (' ' :: u))]
  cases hsf : splitFirst urlSep u with
  | none =>
    rw [marker_split_none u hsf, beforeFirst, hsf,
      pyStrip_cons_wsp ' ' u (by decide)]
  | some ab =>
    obtain ⟨a, b⟩ := ab
    rw [marker_split_some u a b hsf, beforeFirst, hsf,
      pyStrip_cons_wsp ' ' a (by decide)]

/-- Effect of a non-marker, non-blank line on the indexing loop: one
document `(current_url, stripped line)` is added. -/
theorem add_data_go_content (cur : Str) (rest : List Str) (l : Str)
    (h2 : pyStrip l ≠ []) (h3 : urlSep.isPrefixOf (pyStrip l) = false) :
    add_data_go cur (l :: rest) = (cur, pyStrip l) :: add_data_go cur rest := by
  rw [add_data_go, if_neg (by simp [h3]),
    if_neg (by simp [List.isEmpty_iff, h2])]

theorem beforeFirst_of_none (sep s : Str) (h : splitFirst sep s = none) :
    beforeFirst sep s = s := by
  simp [beforeFirst, h]

/-- Effect of a blank line on the indexing loop: nothing. -/
theorem add_data_go_blank (cur : Str) (rest : List Str) (l : Str)
    (h : pyStrip l = []) :
    add_data_go cur (l :: rest) = add_data_go cur rest := by
  rw [add_data_go, h, if_neg (by simp [urlSep, List.isPrefixOf]),
    if_pos (by simp)]

theorem forall_mem_stripLeft_iff (s : Str) :
    (∀ c ∈ stripLeft s, wsp c = true) ↔ ∀ c ∈ s, wsp c = true := by
  constructor
  · intro h c hc
    rw [← List.takeWhile_append_dropWhile wsp s] at hc
    rcases List.mem_append.mp hc with h1 | h2
    · exact List.mem_takeWhile_imp h1
    · exact h c h2
  · intro h c hc
    exact h c ((List.dropWhile_sublist wsp).subset hc)

theorem stripRight_eq_nil_iff (x : Str) :
    stripRight x = [] ↔ ∀ c ∈ x, wsp c = true := by
  rw [stripRight, List.reverse_eq_nil_iff, List.dropWhile_eq_nil_iff]
  constructor
  · intro h c hc
    exact h c (List.mem_reverse.mpr hc)
  · intro h c hc
    exact h c (List.mem_reverse.mp hc)

theorem pyStrip_eq_nil_iff (s : Str) :
    pyStrip s = [] ↔ s.all wsp = true := by
  rw [pyStrip, stripRight_eq_nil_iff, forall_mem_stripLeft_iff,
    List.all_eq_true]

theorem mem_dropWhile_of_not (p : Char → Bool) (l : Str) (c : Char)
    (hc : c ∈ l) (hp : p c = false) : c ∈ l.dropWhile p := by
  rw [← List.takeWhile_append_dropWhile p l] at hc
  rcases List.mem_append.mp hc with h1 | h2
  · rw [List.mem_takeWhile_imp h1] at hp
    exact absurd hp (by simp)
  · exact h2

theorem mem_pyStrip_of_not_wsp (s : Str) (c : Char) (hc : c ∈ s)
    (hp : wsp c = false) : c ∈ pyStrip s := by
  have h1 : c ∈ stripLeft s := mem_dropWhile_of_not wsp s c hc hp
  have h2 : c ∈ (stripLeft s).reverse.dropWhile wsp :=
    mem_dropWhile_of_not wsp _ c (List.mem_reverse.mpr h1) hp
  rw [pyStrip, stripRight]
  exact List.mem_reverse.mpr h2

theorem pyStrip_all_wsp_eq_false (s : Str) (h : s.all wsp = false) :
    (pyStrip s).all wsp = false := by
  obtain ⟨c, hc, hw⟩ := List.all_eq_false.mp h
  apply List.all_eq_false.mpr
  exact ⟨c, mem_pyStrip_of_not_wsp s c hc (by simpa using hw), hw⟩

/-- A node of the rendered page's document tree: a text node carrying its
`textContent`, or an element node with a list of children (`childNodes` in
document order).  Text nodes have no children, matching the DOM. -/
inductive DomNode where
  | text (s : Str)
  | element (children : List DomNode)

mutual

/-- The in-page script of `get_all_leaf_nodes_text` (main.py:83-108): if a
node has child nodes, concatenate the results of the children in order;
otherwise, if it is a text node whose `textContent.trim()` is non-empty,
contribute that trimmed text; otherwise contribute nothing.  (An element
with no children falls through both tests and contributes nothing;
JavaScript `trim()` removes the same surrounding whitespace as `pyStrip`.) -/
def get_all_leaf_nodes_text : DomNode → List Str
  | .text s => if (pyStrip s).isEmpty then [] else [pyStrip s]
  | .element cs => leaf_text_of_children cs

/-- Concatenation of `get_all_leaf_nodes_text` over a child list, in
document order. -/
def leaf_text_of_children : List DomNode → List Str
  | [] => []
  | c :: cs => get_all_leaf_nodes_text c ++ leaf_text_of_children cs

end

mutual

/-- Specification-side view: the raw `textContent` of every leaf text node
of the tree, in depth-first pre-order document order. -/
def leafTextNodes : DomNode → List Str
  | .text s => [s]
  | .element cs => leafTextNodesList cs

/-- `leafTextNodes` over a child list, in document order. -/
def leafTextNodesList : List DomNode → List Str
  | [] => []
  | c :: cs => leafTextNodes c ++ leafTextNodesList cs

end

mutual

theorem get_all_leaf_nodes_text_eq : ∀ n : DomNode,
    get_all_leaf_nodes_text n =
      ((leafTextNodes n).filter (fun s => !s.all wsp)).map pyStrip
  | .text s => by
    rw [get_all_leaf_nodes_text, leafTextNodes]
    by_cases h : s.all wsp = true
    · rw [if_pos (by simp [List.isEmpty_iff, pyStrip_eq_nil_iff, h])]
      simp [List.filter, h]
    · rw [if_neg (by simp [List.isEmpty_iff, pyStrip_eq_nil_iff, h])]
      simp [List.filter, h]
  | .element cs => by
    rw [get_all_leaf_nodes_text, leafTextNodes,
      leaf_text_of_children_eq cs]

theorem leaf_text_of_children_eq : ∀ cs : List DomNode,
    leaf_text_of_children cs =
      ((leafTextNodesList cs).filter (fun s => !s.all wsp)).map pyStrip
  | [] => rfl
  | c :: cs => by
    rw [leaf_text_of_children, leafTextNodesList,
      get_all_leaf_nodes_text_eq c, leaf_text_of_children_eq cs,
      List.filter_append, List.map_append]

end

/-- Concrete fixture: a model that classifies every candidate positive. -/
def exM : Str → Bool := fun _ => true

/-- Concrete fixture: a model keeping exactly the strings of at most two
characters. -/
def exM2 : Str → Bool := fun s => decide (s.length ≤ 2)

/-- Concrete fixture: a candidate list for the batching witness. -/
def exL : List Str := [str "ab", str "abc", str "x"]

/-- Concrete fixture for C1's counterexample: the second URL raises an
exception that is not a `WebDriverException` (e.g. a torch error inside
`model_inference`), while the other URLs load pages with one leaf text
each. -/
def exEnvFatal : Str → PageBehavior := fun u =>
  if u = str "b" then .raises .other
  else if u = str "a" then .loads [str "x"]
  else .loads [str "y"]

/-- Concrete fixture for C1's witness: the second URL times out (a
`WebDriverException`), the others load pages with one leaf text. -/
def exEnvTimeout : Str → PageBehavior := fun u =>
  if u = str "b" then .raises .timeout else .loads [str "x"]

/-- C1, counterexample: with three URLs where the second raises an
exception that is not a `WebDriverException`, the run aborts: the third
URL is never passed to the scraper, and its block is missing from the
artifact even though it would have yielded positives — refuting the claim
that any exception from a single URL is non-fatal and every subsequent URL
is still processed. -/
theorem c1_counterexample :
    (produce_output exM exEnvFatal [str "a", str "b", str "c"]).scraped =
      [str "a", str "b"] ∧
    (produce_output exM exEnvFatal [str "a", str "b", str "c"]).fatal =
      some ExcKind.other ∧
    str "c" ∉ (produce_output exM exEnvFatal [str "a", str "b", str "c"]).scraped ∧
    (urlMarker ++ str "c") ∉ artifact exM exEnvFatal [str "a", str "b", str "c"] ∧
    positives exM exEnvFatal (str "c") ≠ [] := by
  decide

/-- C1 (amended): if no URL's processing raises an exception outside the
`WebDriverException` hierarchy, then every URL of the list is passed to the
scraper exactly once, in order, with no retry (`scraped = urls`), the run
completes (`fatal = none`), and the artifact consists of the blocks of
exactly the URLs that yielded positives, in processing order.  Browser
errors (timeouts, stale references, other `WebDriverException`s) are
logged and skipped; an exception of any other type escaping the Page
Scraper aborts the run. -/
theorem c1_fault_isolation_browser_only (m : Str → Bool)
    (env : Str → PageBehavior) (urls : List Str)
    (h : urls.all (fun u => !isFatalBehavior (env u)) = true) :
    (produce_output m env urls).scraped = urls ∧
    (produce_output m env urls).fatal = none ∧
    artifact m env urls = specBlocks m env urls := by
  obtain ⟨h1, h2⟩ := produce_output_no_fatal m env urls h
  exact ⟨h1, h2, by rw [artifact_eq_specBlocks m env urls, h1]⟩

/-- Witness for C1's amended theorem: a run where the second URL times out
(a browser error) still scrapes all three URLs and completes. -/
theorem c1_fault_isolation_browser_only_witness :
    ([str "a", str "b", str "c"].all
      (fun u => !isFatalBehavior (exEnvTimeout u)) = true) ∧
    ((produce_output exM exEnvTimeout [str "a", str "b", str "c"]).scraped =
      [str "a", str "b", str "c"] ∧
    (produce_output exM exEnvTimeout [str "a", str "b", str "c"]).fatal = none ∧
    artifact exM exEnvTimeout [str "a", str "b", str "c"] =
      specBlocks exM exEnvTimeout [str "a", str "b", str "c"]) :=
  ⟨by decide,
    c1_fault_isolation_browser_only exM exEnvTimeout
      [str "a", str "b", str "c"] (by decide)⟩

/-- C2, counterexample: on a navigation timeout the Page Scraper returns
`None` (it logs and falls off the end of the function), not an empty
`ProductName` list — `.ok none`, not `.ok (some [])`. -/
theorem c2_counterexample :
    scrape_product_names exM (.raises .timeout) = .ok none ∧
    scrape_product_names exM (.raises .timeout) ≠
      .ok (some ([] : List Str)) :=
  ⟨rfl, by simp [scrape_product_names, isWebDriverExc]⟩

/-- C2 (amended): for every browser-automation error (navigation timeout,
script timeout, stale reference, or any other `WebDriverException`), the
Page Scraper catches it and returns `None` — a falsy value the
orchestrator treats exactly like an empty list — and never raises past its
own boundary. -/
theorem c2_scraper_catches_browser_errors (m : Str → Bool) (k : ExcKind)
    (h : isWebDriverExc k = true) :
    scrape_product_names m (.raises k) = .ok none := by
  simp [scrape_product_names, h]

/-- Witness for C2's amended theorem at a stale-element error. -/
theorem c2_scraper_catches_browser_errors_witness :
    isWebDriverExc .stale = true ∧
    scrape_product_names exM (.raises .stale) = .ok none :=
  ⟨by decide, c2_scraper_catches_browser_errors exM .stale (by decide)⟩

/-- C3: for every batch size `B ≥ 1`, chunked classification equals the
one-chunk classification — both are `l.filter m` — so the result is a
subsequence of the input determined only by (model, input), independent of
chunk boundaries; an empty candidate list yields an empty result with no
model invocation. -/
theorem c3_batching_invariance (m : Str → Bool) (B₁ B₂ : Nat)
    (l : List Str) (h₁ : 1 ≤ B₁) (h₂ : 1 ≤ B₂) :
    model_inference m B₁ l = model_inference m B₂ l ∧
    model_inference m B₁ l = l.filter m ∧
    List.Sublist (model_inference m B₁ l) l ∧
    model_inference m B₁ [] = [] ∧
    model_inference_calls B₁ [] = 0 := by
  have e₁ := model_inference_eq_filter m B₁ h₁ l
  have e₂ := model_inference_eq_filter m B₂ h₂ l
  refine ⟨by rw [e₁, e₂], e₁, ?_, ?_, ?_⟩
  · rw [e₁]
    exact List.filter_sublist l
  · rw [model_inference_eq_filter m B₁ h₁ []]
    rfl
  · simp [model_inference_calls, model_inference_calls_aux]

/-- Witness for C3 at batch sizes 2 and 64 on a concrete candidate list. -/
theorem c3_batching_invariance_witness :
    1 ≤ 2 ∧ 1 ≤ 64 ∧
    (model_inference exM2 2 exL = model_inference exM2 64 exL ∧
    model_inference exM2 2 exL = exL.filter exM2 ∧
    List.Sublist (model_inference exM2 2 exL) exL ∧
    model_inference exM2 2 [] = [] ∧
    model_inference_calls 2 [] = 0) :=
  ⟨by decide, by decide,
    c3_batching_invariance exM2 2 64 exL (by decide) (by decide)⟩

/-- C4: the Candidate Filter's output is an order-preserving subsequence of
its input, and a string is retained iff it is non-empty after trimming and
its whitespace-delimited word count is at most 10. -/
theorem c4_candidate_filter_spec (l : List Str) (t : Str) :
    List.Sublist (get_candidate_names l) l ∧
    (t ∈ get_candidate_names l ↔
      t ∈ l ∧ pyStrip t ≠ [] ∧ (pyWords t).length ≤ 10) := by
  refine ⟨List.filter_sublist l, ?_⟩
  rw [get_candidate_names, List.mem_filter]
  constructor
  · rintro ⟨h1, h2⟩
    rw [filter_text, Bool.and_eq_true] at h2
    exact ⟨h1, by simpa [List.isEmpty_iff] using h2.1, by simpa using h2.2⟩
  · rintro ⟨h1, h2, h3⟩
    refine ⟨h1, ?_⟩
    rw [filter_text, Bool.and_eq_true]
    exact ⟨by simpa [List.isEmpty_iff] using h2, by simpa using h3⟩

/-- C5: the output artifact of every run is exactly the concatenation, in
processing order, of one block per scraped URL with at least one positive
(a blank line, the `URL: <url>` line, then one line per name verbatim);
URLs yielding no positives or failing contribute no lines. -/
theorem c5_output_format (m : Str → Bool) (env : Str → PageBehavior)
    (urls : List Str) :
    artifact m env urls =
      specBlocks m env (produce_output m env urls).scraped :=
  artifact_eq_specBlocks m env urls

/-- C6: round-trip of the output format through the Search Indexer — an
artifact made of a block `URL: A / n1 / n2` followed by a block
`URL: B / n3` (in the pipeline's format, each block led by a blank line)
indexes to exactly the three documents (A,n1), (A,n2), (B,n3), for all
URLs and name lines that are trimmed, non-empty, and free of the marker
text (URLs) resp. not starting with the marker (names). -/
theorem c6_round_trip (A B n1 n2 n3 : Str)
    (hA1 : pyStrip A = A) (hA2 : A ≠ []) (hA3 : splitFirst urlSep A = none)
    (hB1 : pyStrip B = B) (hB2 : B ≠ []) (hB3 : splitFirst urlSep B = none)
    (h11 : pyStrip n1 = n1) (h12 : n1 ≠ []) (h13 : urlSep.isPrefixOf n1 = false)
    (h21 : pyStrip n2 = n2) (h22 : n2 ≠ []) (h23 : urlSep.isPrefixOf n2 = false)
    (h31 : pyStrip n3 = n3) (h32 : n3 ≠ []) (h33 : urlSep.isPrefixOf n3 = false) :
    add_data_to_index (specBlock A [n1, n2] ++ specBlock B [n3]) =
      [(A, n1), (A, n2), (B, n3)] := by
  have hbA : specBlock A [n1, n2] = [] :: (urlMarker ++ A) :: [n1, n2] := by
    rw [specBlock, if_neg (by simp)]
  have hbB : specBlock B [n3] = [] :: (urlMarker ++ B) :: [n3] := by
    rw [specBlock, if_neg (by simp)]
  rw [hbA, hbB]
  show add_data_go []
    ([] :: (urlMarker ++ A) :: n1 :: n2 :: [] :: (urlMarker ++ B) :: n3 :: []) = _
  rw [add_data_go_blank _ _ [] rfl,
    add_data_go_marker _ _ A hA1 hA2, beforeFirst_of_none urlSep A hA3, hA1,
    add_data_go_content _ _ n1 (by rw [h11]; exact h12) (by rw [h11]; exact h13),
    add_data_go_content _ _ n2 (by rw [h21]; exact h22) (by rw [h21]; exact h23),
    add_data_go_blank _ _ [] rfl,
    add_data_go_marker _ _ B hB1 hB2, beforeFirst_of_none urlSep B hB3, hB1,
    add_data_go_content _ _ n3 (by rw [h31]; exact h32) (by rw [h31]; exact h33),
    h11, h21, h31]
  rfl

/-- Witness for C6 at concrete URLs and names. -/
theorem c6_round_trip_witness :
    pyStrip (str "A") = str "A" ∧ str "A" ≠ [] ∧
    splitFirst urlSep (str "A") = none ∧
    pyStrip (str "B") = str "B" ∧ str "B" ≠ [] ∧
    splitFirst urlSep (str "B") = none ∧
    pyStrip (str "n1") = str "n1" ∧ str "n1" ≠ [] ∧
    urlSep.isPrefixOf (str "n1") = false ∧
    pyStrip (str "n2") = str "n2" ∧ str "n2" ≠ [] ∧
    urlSep.isPrefixOf (str "n2") = false ∧
    pyStrip (str "n3") = str "n3" ∧ str "n3" ≠ [] ∧
    urlSep.isPrefixOf (str "n3") = false ∧
    add_data_to_index
      (specBlock (str "A") [str "n1", str "n2"] ++
        specBlock (str "B") [str "n3"]) =
      [(str "A", str "n1"), (str "A", str "n2"), (str "B", str "n3")] :=
  ⟨by decide, by decide, by decide, by decide, by decide, by decide,
    by decide, by decide, by decide, by decide, by decide, by decide,
    by decide, by decide, by decide,
    c6_round_trip (str "A") (str "B") (str "n1") (str "n2") (str "n3")
      (by decide) (by decide) (by decide) (by decide) (by decide) (by decide)
      (by decide) (by decide) (by decide) (by decide) (by decide) (by decide)
      (by decide) (by decide) (by decide)⟩

/-- C7, counterexample: the marker line `URL: aURL:b` — whose URL
`aURL:b` itself contains the marker text — sets the cursor to `a`, not to
`aURL:b`: `line.split("URL:")[1]` keeps only the segment between the first
and second occurrence of `URL:`.  The next content line is therefore
indexed under `a`. -/
theorem c7_counterexample :
    add_data_to_index [urlMarker ++ str "aURL:b", str "x"] =
      [(str "a", str "x")] ∧
    str "a" ≠ str "aURL:b" := by
  decide

/-- C7 (amended): a marker line `URL: <u>` (with `<u>` trimmed and
non-empty) sets the current-URL cursor to the stripped part of `<u>`
before the first occurrence of the marker text `URL:` inside `<u>`; in
particular the cursor is exactly `<u>` whenever `<u>` does not contain the
marker text. -/
theorem c7_marker_cursor (cur : Str) (rest : List Str) (u : Str)
    (h1 : pyStrip u = u) (h2 : u ≠ []) :
    add_data_go cur ((urlMarker ++ u) :: rest) =
      add_data_go (pyStrip (beforeFirst urlSep u)) rest ∧
    (splitFirst urlSep u = none →
      add_data_go cur ((urlMarker ++ u) :: rest) = add_data_go u rest) := by
  refine ⟨add_data_go_marker cur rest u h1 h2, fun hn => ?_⟩
  rw [add_data_go_marker cur rest u h1 h2, beforeFirst_of_none urlSep u hn, h1]

/-- Witness for C7's amended theorem at the URL `aURL:b` containing the
marker text (the cursor becomes `a`). -/
theorem c7_marker_cursor_witness :
    pyStrip (str "aURL:b") = str "aURL:b" ∧ str "aURL:b" ≠ [] ∧
    add_data_go [] ((urlMarker ++ str "aURL:b") :: [str "x"]) =
      add_data_go (pyStrip (beforeFirst urlSep (str "aURL:b"))) [str "x"] :=
  ⟨by decide, by decide,
    (c7_marker_cursor [] [str "x"] (str "aURL:b") (by decide) (by decide)).1⟩

/-- C8: the Text Extractor returns exactly the trimmed contents of the
leaf text nodes that are not entirely whitespace, in depth-first pre-order
document order (element leaves contribute nothing), and its output
contains no empty or whitespace-only string. -/
theorem c8_text_extractor (n : DomNode) :
    get_all_leaf_nodes_text n =
      ((leafTextNodes n).filter (fun s => !s.all wsp)).map pyStrip ∧
    (get_all_leaf_nodes_text n).all (fun s => !s.all wsp) = true := by
  refine ⟨get_all_leaf_nodes_text_eq n, ?_⟩
  rw [get_all_leaf_nodes_text_eq n, List.all_eq_true]
  intro s hs
  rw [List.mem_map] at hs
  obtain ⟨t, ht, rfl⟩ := hs
  rw [List.mem_filter] at ht
  have h : t.all wsp = false := by simpa using ht.2
  simpa using pyStrip_all_wsp_eq_false t h

/-- C9: a non-blank content line appearing before any URL-marker line is
indexed as a document whose url field is the empty string, because the
`current_url` cursor is initialised to `""`: for any marker-free leading
segment of the artifact, every document it contributes carries url `""`. -/
theorem c9_empty_context (pre rest : List Str)
    (h : pre.all (fun l => !(urlSep.isPrefixOf (pyStrip l))) = true) :
    add_data_to_index (pre ++ rest) =
      (((pre.map pyStrip).filter (fun l => !l.isEmpty)).map
        (fun l => (([] : Str), l))) ++ add_data_go [] rest := by
  induction pre with
  | nil => rfl
  | cons l pre ih =>
    simp only [List.all_cons, Bool.and_eq_true] at h
    have hl : urlSep.isPrefixOf (pyStrip l) = false := by simpa using h.1
    have ihr := ih h.2
    rw [List.cons_append]
    show add_data_go [] (l :: (pre ++ rest)) = _
    by_cases hb : pyStrip l = []
    · rw [add_data_go_blank _ _ l hb,
        show add_data_go [] (pre ++ rest) = add_data_to_index (pre ++ rest)
          from rfl, ihr]
      simp [hb]
    · rw [add_data_go_content _ _ l hb hl,
        show add_data_go [] (pre ++ rest) = add_data_to_index (pre ++ rest)
          from rfl, ihr]
      simp [List.isEmpty_iff, hb]

/-- Witness for C9: the content line `x` before any marker is indexed with
url `""`; a later marker still takes effect. -/
theorem c9_empty_context_witness :
    ([str "x"].all (fun l => !(urlSep.isPrefixOf (pyStrip l))) = true) ∧
    add_data_to_index ([str "x"] ++ [urlMarker ++ str "b", str "y"]) =
      ((([str "x"].map pyStrip).filter (fun l => !l.isEmpty)).map
        (fun l => (([] : Str), l))) ++
        add_data_go [] [urlMarker ++ str "b", str "y"] :=
  ⟨by decide,
    c9_empty_context [str "x"] [urlMarker ++ str "b", str "y"] (by decide)⟩

theorem runOps_take_succ_writes (ops : List FileOp)
    (hall : ops.all isWrite = true) (k : Nat) :
    ∃ ext : List Str,
      runOps [] (ops.take (k + 1)) = runOps [] (ops.take k) ++ ext := by
  rw [List.take_succ, runOps_append]
  cases hx : ops[k]? with
  | none => exact ⟨[], by simp [runOps]⟩
  | some op =>
    have hop : op ∈ ops := List.getElem?_mem hx
    have hw : isWrite op = true := (List.all_eq_true.mp hall) op hop
    cases op with
    | openTrunc => exact absurd hw (by simp [isWrite])
    | writeLines ls => exact ⟨ls, by simp [runOps, applyOp]⟩

/-- C10: every run's file-operation trace starts with the truncating open
(`open(path, "w")`) before any URL is processed — so replaying the trace
over any pre-existing artifact content yields the same final artifact as
starting from an empty file — and every subsequent operation is a write,
each of which only extends the previously written content. -/
theorem c10_truncate_then_append (m : Str → Bool) (env : Str → PageBehavior)
    (urls : List Str) (prev : List Str) (k : Nat) :
    runOps prev (produce_output_ops m env urls) = artifact m env urls ∧
    (produce_output m env urls).ops.all isWrite = true ∧
    ∃ ext : List Str,
      runOps [] ((produce_output m env urls).ops.take (k + 1)) =
        runOps [] ((produce_output m env urls).ops.take k) ++ ext :=
  ⟨rfl, produce_output_ops_all_writes m env urls,
    runOps_take_succ_writes _ (produce_output_ops_all_writes m env urls) k⟩
